import Mathlib

/-!
Shallow embedding of the core ray-tracer (intersection engine, CSG filtering,
refractive-index bookkeeping, shadowing and the recursive shading loop) of the
`raytracer_challenge` repository.

Modelling conventions:
* `f64` values are idealized as exact rationals `ℚ`.  `f64::sqrt` is modelled
  by `ratSqrt`, which is exact on perfect squares (every concrete input used
  below) and returns the junk value `0` elsewhere; `f64::powf` is modelled by
  `powf`, exact for natural exponents.
* The IEEE special values `±∞` and `NaN` genuinely flow through the bounding
  box code (`Geometry::bbox` constructs boxes with infinite coordinates which
  `BoundingBox::transform` then multiplies by matrix entries).  Those
  computations are modelled by the four-point type `XF` below, which mirrors
  IEEE f64 arithmetic and Rust's NaN-ignoring `f64::min`/`f64::max` exactly on
  the value set {finite rational, +∞, -∞, NaN}.
* Rust's `&mut Vec` out-parameters are modelled by returning the appended
  records; `World::intersect` clears its buffer on entry, so the reused ledger
  buffer is modelled as a pure value.
* The process-wide shape-id counter is modelled by passing the fresh id to the
  shape constructor explicitly.
-/

namespace RT

/-- Modelled from the spec: the repository's `config` module is not under
`src/`; the spec (§4.1 "Numerical policy") only says all comparisons against
zero use "a fixed epsilon".  The customary value 1/10000 is used; no claim
settled below depends on the exact (positive, < 1) value. -/
def EPSILON : ℚ := 1 / 10000

/-- Newton iteration for the integer square root, with explicit fuel so that
it is structurally recursive. -/
def isqrtAux : ℕ → ℕ → ℕ → ℕ
  | 0, _, guess => guess
  | fuel + 1, n, guess =>
      let next := (guess + n / guess) / 2
      if next < guess then isqrtAux fuel n next else guess

/-- Integer square root (rounding down), by Newton iteration. -/
def isqrt (n : ℕ) : ℕ :=
  if n ≤ 1 then n else isqrtAux n n (n / 2 + 1)

/-- Idealization of `f64::sqrt` on exact rationals: the exact square root when
the argument is a perfect square of a rational, junk `0` otherwise (including
negative arguments, where f64 produces NaN). -/
def ratSqrt (x : ℚ) : ℚ :=
  let n := isqrt x.num.toNat
  let d := isqrt x.den
  if 0 ≤ x.num ∧ n * n = x.num.toNat ∧ d * d = x.den then (n : ℚ) / (d : ℚ) else 0

/-- Idealization of `f64::powf`: exact for natural-number exponents (the only
exponents reaching it below are material shininess constants), junk `0`
otherwise. -/
def powf (base exp : ℚ) : ℚ :=
  if exp.den = 1 ∧ 0 ≤ exp.num then base ^ exp.num.toNat else 0

/-- `src/linalg/vector.rs`: homogeneous 4-vector (`w = 1` point, `w = 0`
direction). -/
structure Vector where
  x : ℚ
  y : ℚ
  z : ℚ
  w : ℚ
  deriving DecidableEq

namespace Vector

/-- `Vector::point`. -/
def point (x y z : ℚ) : Vector := ⟨x, y, z, 1⟩

/-- `Vector::vector`. -/
def vector (x y z : ℚ) : Vector := ⟨x, y, z, 0⟩

/-- `Vector::magnitude` (via the idealized square root). -/
def magnitude (v : Vector) : ℚ :=
  ratSqrt (v.x ^ 2 + v.y ^ 2 + v.z ^ 2)

/-- `Vector::normalize`.  Rust divides componentwise by the magnitude; for the
zero vector f64 yields NaNs while `ℚ` division by zero yields `0`. -/
def normalize (v : Vector) : Vector :=
  let m := v.magnitude
  ⟨v.x / m, v.y / m, v.z / m, 0⟩

/-- `Vector::dot` (ignores `w`, as in the source). -/
def dot (v other : Vector) : ℚ :=
  v.x * other.x + v.y * other.y + v.z * other.z

/-- `Vector::cross`. -/
def cross (v other : Vector) : Vector :=
  vector (v.y * other.z - v.z * other.y)
    (v.z * other.x - v.x * other.z)
    (v.x * other.y - v.y * other.x)

/-- `impl Add for Vector`. -/
instance : Add Vector :=
  ⟨fun v o => ⟨v.x + o.x, v.y + o.y, v.z + o.z, v.w + o.w⟩⟩

/-- `impl Sub for Vector`. -/
instance : Sub Vector :=
  ⟨fun v o => ⟨v.x - o.x, v.y - o.y, v.z - o.z, v.w - o.w⟩⟩

/-- `impl Neg for Vector`. -/
instance : Neg Vector :=
  ⟨fun v => ⟨-v.x, -v.y, -v.z, -v.w⟩⟩

/-- `impl Mul<f64> for Vector` (componentwise scaling, including `w`). -/
instance : HMul Vector ℚ Vector :=
  ⟨fun v a => ⟨v.x * a, v.y * a, v.z * a, v.w * a⟩⟩

/-- `Vector::reflect`. -/
def reflect (v normal : Vector) : Vector :=
  v - normal * (2 * v.dot normal)

end Vector

/-- `src/linalg/matrix.rs`: 4×4 matrix, fields `mRC` mirroring `data[R][C]`. -/
structure Matrix where
  m00 : ℚ
  m01 : ℚ
  m02 : ℚ
  m03 : ℚ
  m10 : ℚ
  m11 : ℚ
  m12 : ℚ
  m13 : ℚ
  m20 : ℚ
  m21 : ℚ
  m22 : ℚ
  m23 : ℚ
  m30 : ℚ
  m31 : ℚ
  m32 : ℚ
  m33 : ℚ
  deriving DecidableEq

namespace Matrix

/-- `Matrix::id`. -/
def id : Matrix :=
  ⟨1, 0, 0, 0,
   0, 1, 0, 0,
   0, 0, 1, 0,
   0, 0, 0, 1⟩

/-- `Matrix::translation`. -/
def translation (x y z : ℚ) : Matrix :=
  ⟨1, 0, 0, x,
   0, 1, 0, y,
   0, 0, 1, z,
   0, 0, 0, 1⟩

/-- `Matrix::scaling`. -/
def scaling (x y z : ℚ) : Matrix :=
  ⟨x, 0, 0, 0,
   0, y, 0, 0,
   0, 0, z, 0,
   0, 0, 0, 1⟩

/-- `Matrix::transpose`. -/
def transpose (m : Matrix) : Matrix :=
  ⟨m.m00, m.m10, m.m20, m.m30,
   m.m01, m.m11, m.m21, m.m31,
   m.m02, m.m12, m.m22, m.m32,
   m.m03, m.m13, m.m23, m.m33⟩

/-- `Matrix::determinant` (the 2×2-subdeterminant expansion of the source). -/
def determinant (m : Matrix) : ℚ :=
  let s0 := m.m00 * m.m11 - m.m10 * m.m01
  let s1 := m.m00 * m.m12 - m.m10 * m.m02
  let s2 := m.m00 * m.m13 - m.m10 * m.m03
  let s3 := m.m01 * m.m12 - m.m11 * m.m02
  let s4 := m.m01 * m.m13 - m.m11 * m.m03
  let s5 := m.m02 * m.m13 - m.m12 * m.m03
  let c5 := m.m22 * m.m33 - m.m32 * m.m23
  let c4 := m.m21 * m.m33 - m.m31 * m.m23
  let c3 := m.m21 * m.m32 - m.m31 * m.m22
  let c2 := m.m20 * m.m33 - m.m30 * m.m23
  let c1 := m.m20 * m.m32 - m.m30 * m.m22
  let c0 := m.m20 * m.m31 - m.m30 * m.m21
  s0 * c5 - s1 * c4 + s2 * c3 + s3 * c2 - s4 * c1 + s5 * c0

/-- `Matrix::inverse` (adjugate formula of the source).  The source asserts
`det != 0` (fatal per spec §7 for degenerate placements); here a zero
determinant yields the junk matrix of zeros via `ℚ` division by zero. -/
def inverse (m : Matrix) : Matrix :=
  let s0 := m.m00 * m.m11 - m.m10 * m.m01
  let s1 := m.m00 * m.m12 - m.m10 * m.m02
  let s2 := m.m00 * m.m13 - m.m10 * m.m03
  let s3 := m.m01 * m.m12 - m.m11 * m.m02
  let s4 := m.m01 * m.m13 - m.m11 * m.m03
  let s5 := m.m02 * m.m13 - m.m12 * m.m03
  let c5 := m.m22 * m.m33 - m.m32 * m.m23
  let c4 := m.m21 * m.m33 - m.m31 * m.m23
  let c3 := m.m21 * m.m32 - m.m31 * m.m22
  let c2 := m.m20 * m.m33 - m.m30 * m.m23
  let c1 := m.m20 * m.m32 - m.m30 * m.m22
  let c0 := m.m20 * m.m31 - m.m30 * m.m21
  let det := s0 * c5 - s1 * c4 + s2 * c3 + s3 * c2 - s4 * c1 + s5 * c0
  ⟨(m.m11 * c5 - m.m12 * c4 + m.m13 * c3) / det,
   (-m.m01 * c5 + m.m02 * c4 - m.m03 * c3) / det,
   (m.m31 * s5 - m.m32 * s4 + m.m33 * s3) / det,
   (-m.m21 * s5 + m.m22 * s4 - m.m23 * s3) / det,
   (-m.m10 * c5 + m.m12 * c2 - m.m13 * c1) / det,
   (m.m00 * c5 - m.m02 * c2 + m.m03 * c1) / det,
   (-m.m30 * s5 + m.m32 * s2 - m.m33 * s1) / det,
   (m.m20 * s5 - m.m22 * s2 + m.m23 * s1) / det,
   (m.m10 * c4 - m.m11 * c2 + m.m13 * c0) / det,
   (-m.m00 * c4 + m.m01 * c2 - m.m03 * c0) / det,
   (m.m30 * s4 - m.m31 * s2 + m.m33 * s0) / det,
   (-m.m20 * s4 + m.m21 * s2 - m.m23 * s0) / det,
   (-m.m10 * c3 + m.m11 * c1 - m.m12 * c0) / det,
   (m.m00 * c3 - m.m01 * c1 + m.m02 * c0) / det,
   (-m.m30 * s3 + m.m31 * s1 - m.m32 * s0) / det,
   (m.m20 * s3 - m.m21 * s1 + m.m22 * s0) / det⟩

/-- `impl Mul<Vector> for Matrix`. -/
instance : HMul Matrix Vector Vector :=
  ⟨fun m v =>
    ⟨m.m00 * v.x + m.m01 * v.y + m.m02 * v.z + m.m03 * v.w,
     m.m10 * v.x + m.m11 * v.y + m.m12 * v.z + m.m13 * v.w,
     m.m20 * v.x + m.m21 * v.y + m.m22 * v.z + m.m23 * v.w,
     m.m30 * v.x + m.m31 * v.y + m.m32 * v.z + m.m33 * v.w⟩⟩

end Matrix

/-- `src/color.rs`: RGB color. -/
structure Color where
  r : ℚ
  g : ℚ
  b : ℚ
  deriving DecidableEq

namespace Color

/-- `Color::black`. -/
def black : Color := ⟨0, 0, 0⟩

/-- `Color::white`. -/
def white : Color := ⟨1, 1, 1⟩

/-- `impl Add for Color`. -/
instance : Add Color :=
  ⟨fun c o => ⟨c.r + o.r, c.g + o.g, c.b + o.b⟩⟩

/-- `impl Mul<f64> for Color`. -/
instance : HMul Color ℚ Color :=
  ⟨fun c a => ⟨c.r * a, c.g * a, c.b * a⟩⟩

/-- `impl Mul<Color> for Color` (componentwise). -/
instance : Mul Color :=
  ⟨fun c o => ⟨c.r * o.r, c.g * o.g, c.b * o.b⟩⟩

end Color

/-- `src/ray.rs`. -/
structure Ray where
  origin : Vector
  direction : Vector
  deriving DecidableEq

namespace Ray

/-- `Ray::position`. -/
def position (ray : Ray) (t : ℚ) : Vector :=
  ray.origin + ray.direction * t

/-- `Ray::transform`. -/
def transform (ray : Ray) (matrix : Matrix) : Ray :=
  ⟨matrix * ray.origin, matrix * ray.direction⟩

end Ray

/-- IEEE f64 value as actually manipulated by the bounding-box code: a finite
rational, `+∞`, `-∞`, or NaN.  `Geometry::bbox` builds boxes with
`f64::INFINITY` coordinates and `BoundingBox::transform` and
`Geometry::intersect_cube_axis` do arithmetic on them, so these special values
are modelled exactly rather than idealized away. -/
inductive XF where
  | nan : XF
  | ninf : XF
  | fin : ℚ → XF
  | pinf : XF
  deriving DecidableEq

namespace XF

/-- IEEE f64 negation. -/
def xneg : XF → XF
  | nan => nan
  | ninf => pinf
  | pinf => ninf
  | fin a => fin (-a)

/-- IEEE f64 addition (`∞ + -∞ = NaN`, NaN propagates). -/
def xadd : XF → XF → XF
  | nan, _ => nan
  | _, nan => nan
  | pinf, ninf => nan
  | ninf, pinf => nan
  | pinf, _ => pinf
  | _, pinf => pinf
  | ninf, _ => ninf
  | _, ninf => ninf
  | fin a, fin b => fin (a + b)

/-- IEEE f64 subtraction. -/
def xsub (a b : XF) : XF := xadd a (xneg b)

/-- IEEE f64 multiplication (`0 × ∞ = NaN`, signs as usual, NaN propagates). -/
def xmul : XF → XF → XF
  | nan, _ => nan
  | _, nan => nan
  | pinf, pinf => pinf
  | pinf, ninf => ninf
  | ninf, pinf => ninf
  | ninf, ninf => pinf
  | pinf, fin b => if b = 0 then nan else if 0 < b then pinf else ninf
  | fin a, pinf => if a = 0 then nan else if 0 < a then pinf else ninf
  | ninf, fin b => if b = 0 then nan else if 0 < b then ninf else pinf
  | fin a, ninf => if a = 0 then nan else if 0 < a then ninf else pinf
  | fin a, fin b => fin (a * b)

/-- IEEE f64 division (`x/±∞ = 0`, `±∞/±∞ = NaN`, `x/0` signed infinity or
NaN, NaN propagates; the sole signed-zero distinction of f64 is irrelevant to
every comparison made by this code and is dropped). -/
def xdiv : XF → XF → XF
  | nan, _ => nan
  | _, nan => nan
  | pinf, pinf => nan
  | pinf, ninf => nan
  | ninf, pinf => nan
  | ninf, ninf => nan
  | pinf, fin b => if 0 ≤ b then pinf else ninf
  | ninf, fin b => if 0 ≤ b then ninf else pinf
  | fin _, pinf => fin 0
  | fin _, ninf => fin 0
  | fin a, fin b =>
      if b = 0 then (if a = 0 then nan else if 0 < a then pinf else ninf)
      else fin (a / b)

/-- IEEE f64 `<` (false whenever either side is NaN). -/
def xlt : XF → XF → Bool
  | nan, _ => false
  | _, nan => false
  | ninf, ninf => false
  | ninf, _ => true
  | _, ninf => false
  | pinf, _ => false
  | _, pinf => true
  | fin a, fin b => decide (a < b)

/-- IEEE f64 `<=` (false whenever either side is NaN). -/
def xle : XF → XF → Bool
  | nan, _ => false
  | _, nan => false
  | ninf, _ => true
  | _, ninf => false
  | _, pinf => true
  | pinf, _ => false
  | fin a, fin b => decide (a ≤ b)

/-- Rust `f64::min`: if one argument is NaN the other is returned. -/
def xmin (a b : XF) : XF :=
  match a, b with
  | nan, b => b
  | a, nan => a
  | a, b => if xle a b then a else b

/-- Rust `f64::max`: if one argument is NaN the other is returned. -/
def xmax (a b : XF) : XF :=
  match a, b with
  | nan, b => b
  | a, nan => a
  | a, b => if xle a b then b else a

/-- Collapse back to the exact-rational idealization, sending the special
values to the junk rational `0`. -/
def toRat : XF → ℚ
  | fin a => a
  | _ => 0

end XF

/-- A homogeneous 4-vector whose coordinates are IEEE f64 values including the
specials: the form in which bounding-box corner points actually occur. -/
structure XVec where
  x : XF
  y : XF
  z : XF
  w : XF
  deriving DecidableEq

namespace XVec

/-- `Vector::point` at the XF level. -/
def point (x y z : XF) : XVec := ⟨x, y, z, XF.fin 1⟩

end XVec

/-- Embedding of an exact (finite) vector into the f64-with-specials view. -/
def Vector.toXVec (v : Vector) : XVec :=
  ⟨XF.fin v.x, XF.fin v.y, XF.fin v.z, XF.fin v.w⟩

/-- `impl Mul<Vector> for Matrix` applied to a corner point that may hold
`±∞`: the exact row-wise sum-of-products of the source, under IEEE f64
arithmetic (a zero matrix entry times an infinite coordinate is NaN). -/
def Matrix.mulXVec (m : Matrix) (v : XVec) : XVec :=
  let prod := fun (a : ℚ) (c : XF) => XF.xmul (XF.fin a) c
  ⟨XF.xadd (XF.xadd (XF.xadd (prod m.m00 v.x) (prod m.m01 v.y)) (prod m.m02 v.z)) (prod m.m03 v.w),
   XF.xadd (XF.xadd (XF.xadd (prod m.m10 v.x) (prod m.m11 v.y)) (prod m.m12 v.z)) (prod m.m13 v.w),
   XF.xadd (XF.xadd (XF.xadd (prod m.m20 v.x) (prod m.m21 v.y)) (prod m.m22 v.z)) (prod m.m23 v.w),
   XF.xadd (XF.xadd (XF.xadd (prod m.m30 v.x) (prod m.m31 v.y)) (prod m.m32 v.z)) (prod m.m33 v.w)⟩

/-- `Geometry::intersect_cube_axis` (shape.rs): per-axis slab test, shared by
the unit cube and `BoundingBox::intersects`.  When `|direction| < EPSILON` the
source multiplies the numerators by `f64::INFINITY`. -/
def Geometry.intersect_cube_axis (origin direction : ℚ) (min max : XF) : XF × XF :=
  let t_min_numerator := XF.xsub min (XF.fin origin)
  let t_max_numerator := XF.xsub max (XF.fin origin)
  let p :=
    if |direction| ≥ EPSILON then
      (XF.xdiv t_min_numerator (XF.fin direction), XF.xdiv t_max_numerator (XF.fin direction))
    else
      (XF.xmul t_min_numerator XF.pinf, XF.xmul t_max_numerator XF.pinf)
  if XF.xlt p.2 p.1 then (p.2, p.1) else (p.1, p.2)

/-- `src/bounding_box.rs`. -/
structure BoundingBox where
  min : XVec
  max : XVec
  deriving DecidableEq

namespace BoundingBox

/-- `BoundingBox::empty`. -/
def empty : BoundingBox :=
  ⟨XVec.point XF.pinf XF.pinf XF.pinf, XVec.point XF.ninf XF.ninf XF.ninf⟩

/-- `BoundingBox::new`. -/
def new (min max : XVec) : BoundingBox := ⟨min, max⟩

/-- `BoundingBox::insert` (Rust `f64::min`/`f64::max`, which ignore NaN). -/
def insert (b : BoundingBox) (point : XVec) : BoundingBox :=
  ⟨XVec.point (XF.xmin b.min.x point.x) (XF.xmin b.min.y point.y) (XF.xmin b.min.z point.z),
   XVec.point (XF.xmax b.max.x point.x) (XF.xmax b.max.y point.y) (XF.xmax b.max.z point.z)⟩

/-- `BoundingBox::union`. -/
def union (b other : BoundingBox) : BoundingBox :=
  (b.insert other.min).insert other.max

/-- `BoundingBox::contains` (false on NaN bounds, as for f64 `<=`). -/
def contains (b : BoundingBox) (point : XVec) : Bool :=
  XF.xle b.min.x point.x && XF.xle point.x b.max.x &&
  XF.xle b.min.y point.y && XF.xle point.y b.max.y &&
  XF.xle b.min.z point.z && XF.xle point.z b.max.z

/-- `BoundingBox::transform`: push the 8 corners through the matrix under IEEE
f64 arithmetic and re-insert them into an empty box. -/
def transform (b : BoundingBox) (matrix : Matrix) : BoundingBox :=
  let p1 := b.min
  let p2 := XVec.point b.min.x b.min.y b.max.z
  let p3 := XVec.point b.min.x b.max.y b.min.z
  let p4 := XVec.point b.min.x b.max.y b.max.z
  let p5 := XVec.point b.max.x b.min.y b.min.z
  let p6 := XVec.point b.max.x b.min.y b.max.z
  let p7 := XVec.point b.max.x b.max.y b.min.z
  let p8 := b.max
  [p1, p2, p3, p4, p5, p6, p7, p8].foldl
    (fun bbox p => bbox.insert (matrix.mulXVec p)) empty

/-- `BoundingBox::intersects`. -/
def intersects (b : BoundingBox) (ray : Ray) : Bool :=
  let xt := Geometry.intersect_cube_axis ray.origin.x ray.direction.x b.min.x b.max.x
  let yt := Geometry.intersect_cube_axis ray.origin.y ray.direction.y b.min.y b.max.y
  let zt := Geometry.intersect_cube_axis ray.origin.z ray.direction.z b.min.z b.max.z
  let t_min := XF.xmax (XF.xmax xt.1 yt.1) zt.1
  let t_max := XF.xmin (XF.xmin xt.2 yt.2) zt.2
  XF.xle t_min t_max

end BoundingBox

/-- Approx of `f64` (approx.rs): `(self - other).abs() < EPSILON`. -/
def approx (a b : ℚ) : Bool :=
  decide (|a - b| < EPSILON)

/-- Modelled from the spec: pattern evaluation is an external collaborator
(spec §1, §6: "given a local point, returns a color — consumed, not
reimplemented here"), so `Pattern` is an opaque function from the
material-space point to a color. -/
def Pattern := Vector → Color

/-- `Pattern::plain`. -/
def Pattern.plain (color : Color) : Pattern := fun _ => color

/-- `src/material.rs`. -/
structure Material where
  pattern : Pattern
  ambient : ℚ
  diffuse : ℚ
  specular : ℚ
  shininess : ℚ
  reflective : ℚ
  transparency : ℚ
  refractive_index : ℚ

/-- `impl Default for Material`. -/
def Material.default : Material :=
  { pattern := Pattern.plain Color.white
    ambient := 1 / 10
    diffuse := 9 / 10
    specular := 9 / 10
    shininess := 200
    reflective := 0
    transparency := 0
    refractive_index := 1 }

/-- `src/light.rs`. -/
structure PointLight where
  intensity : Color
  origin : Vector

/-- `Geometry` (shape.rs): closed sum of the primitive kinds. -/
inductive Geometry where
  | sphere : Geometry
  | plane : Geometry
  | cube : Geometry
  | cylinder (min max : ℚ) (closed : Bool) : Geometry
  | cone (min max : ℚ) (closed : Bool) : Geometry
  | triangle (p1 p2 p3 e1 e2 n : Vector) : Geometry
  | smoothTriangle (p1 p2 p3 e1 e2 n1 n2 n3 : Vector) : Geometry

/-- `Geometry::bbox`: the local-space box per variant (with f64 infinities for
the unbounded variants, exactly as in the source). -/
def Geometry.bbox : Geometry → BoundingBox
  | .sphere =>
      BoundingBox.new (Vector.point (-1) (-1) (-1)).toXVec (Vector.point 1 1 1).toXVec
  | .plane =>
      BoundingBox.new (XVec.point XF.ninf (XF.fin 0) XF.ninf)
        (XVec.point XF.pinf (XF.fin 0) XF.pinf)
  | .cube =>
      BoundingBox.new (Vector.point (-1) (-1) (-1)).toXVec (Vector.point 1 1 1).toXVec
  | .cylinder min max closed =>
      if closed then
        BoundingBox.new (XVec.point (XF.fin (-1)) (XF.fin min) (XF.fin (-1)))
          (XVec.point (XF.fin 1) (XF.fin max) (XF.fin 1))
      else
        BoundingBox.new (XVec.point (XF.fin (-1)) XF.ninf (XF.fin (-1)))
          (XVec.point (XF.fin 1) XF.pinf (XF.fin 1))
  | .cone min max closed =>
      if closed then
        let limit := Max.max |min| |max|
        BoundingBox.new (XVec.point (XF.fin (-limit)) (XF.fin min) (XF.fin (-limit)))
          (XVec.point (XF.fin limit) (XF.fin max) (XF.fin limit))
      else
        BoundingBox.new (XVec.point XF.ninf XF.ninf XF.ninf)
          (XVec.point XF.pinf XF.pinf XF.pinf)
  | .triangle p1 p2 p3 _ _ _ =>
      ((BoundingBox.empty.insert p1.toXVec).insert p2.toXVec).insert p3.toXVec
  | .smoothTriangle p1 p2 p3 _ _ _ _ _ =>
      ((BoundingBox.empty.insert p1.toXVec).insert p2.toXVec).insert p3.toXVec

/-- `Geometry::normal_cube`. -/
def Geometry.normal_cube (point : Vector) : Vector :=
  let x_abs := |point.x|
  let y_abs := |point.y|
  let z_abs := |point.z|
  let max := Max.max (Max.max x_abs y_abs) z_abs
  if max = x_abs then Vector.vector point.x 0 0
  else if max = y_abs then Vector.vector 0 point.y 0
  else Vector.vector 0 0 point.z

/-- `Geometry::normal_cylinder`. -/
def Geometry.normal_cylinder (point : Vector) (min max : ℚ) : Vector :=
  let distance := point.x ^ 2 + point.z ^ 2
  if distance < 1 ∧ point.y ≥ max - EPSILON then Vector.vector 0 1 0
  else if distance < 1 ∧ point.y ≤ min + EPSILON then Vector.vector 0 (-1) 0
  else Vector.vector point.x 0 point.z

/-- `Geometry::normal_cone`. -/
def Geometry.normal_cone (point : Vector) (min max : ℚ) : Vector :=
  let distance := point.x ^ 2 + point.z ^ 2
  if distance < 1 ∧ point.y ≥ max - EPSILON then Vector.vector 0 1 0
  else if distance < 1 ∧ point.y ≤ min + EPSILON then Vector.vector 0 (-1) 0
  else
    let y := ratSqrt distance
    let y := if point.y > 0 then -y else y
    Vector.vector point.x y point.z

/-- `Geometry::normal`.  For a smooth triangle the source `unwrap`s `u`/`v`
(a missing value is a fatal precondition violation per spec §7); the junk
default `0` stands in for the panic. -/
def Geometry.normal (g : Geometry) (point : Vector) (u v : Option ℚ) : Vector :=
  match g with
  | .sphere => Vector.vector point.x point.y point.z
  | .plane => Vector.vector 0 1 0
  | .cube => Geometry.normal_cube point
  | .cylinder min max _ => Geometry.normal_cylinder point min max
  | .cone min max _ => Geometry.normal_cone point min max
  | .triangle _ _ _ _ _ n => n
  | .smoothTriangle _ _ _ _ _ n1 n2 n3 =>
      let u := u.getD 0
      let v := v.getD 0
      n2 * u + n3 * v + n1 * (1 - u - v)

/-- `src/shape.rs` `Shape`: geometry + placement + material + derived data.
The process-wide `next_id` counter is modelled by the explicit `id`. -/
structure Shape where
  transform_inv : Matrix
  transform_inv_tsp : Matrix
  bbox : BoundingBox
  material_inv : Matrix
  material : Material
  geometry : Geometry
  casts_shadow : Bool
  id : ℕ

/-- `ShapeArgs`. -/
structure ShapeArgs where
  transform : Matrix
  material : Material
  casts_shadow : Bool

/-- `impl Default for ShapeArgs`. -/
def ShapeArgs.default : ShapeArgs :=
  { transform := Matrix.id, material := Material.default, casts_shadow := true }

namespace Shape

/-- `Shape::shape` (the private constructor), with the generated id made
explicit. -/
def shape (args : ShapeArgs) (geometry : Geometry) (id : ℕ) : Shape :=
  let inv := args.transform.inverse
  { transform_inv := inv
    transform_inv_tsp := inv.transpose
    bbox := geometry.bbox.transform args.transform
    material_inv := inv
    material := args.material
    geometry := geometry
    casts_shadow := args.casts_shadow
    id := id }

/-- `Shape::sphere`. -/
def sphere (args : ShapeArgs) (id : ℕ) : Shape := shape args .sphere id

/-- `Shape::plane`. -/
def plane (args : ShapeArgs) (id : ℕ) : Shape := shape args .plane id

/-- `Shape::cube`. -/
def cube (args : ShapeArgs) (id : ℕ) : Shape := shape args .cube id

/-- `Shape::cylinder`. -/
def cylinder (args : ShapeArgs) (min max : ℚ) (closed : Bool) (id : ℕ) : Shape :=
  shape args (.cylinder min max closed) id

/-- `Shape::cone`. -/
def cone (args : ShapeArgs) (min max : ℚ) (closed : Bool) (id : ℕ) : Shape :=
  shape args (.cone min max closed) id

/-- `Shape::triangle`. -/
def triangle (args : ShapeArgs) (p1 p2 p3 : Vector) (id : ℕ) : Shape :=
  let e1 := p2 - p1
  let e2 := p3 - p1
  let n := (e2.cross e1).normalize
  shape args (.triangle p1 p2 p3 e1 e2 n) id

/-- `Shape::smooth_triangle`. -/
def smooth_triangle (args : ShapeArgs) (p1 p2 p3 n1 n2 n3 : Vector) (id : ℕ) : Shape :=
  let e1 := p2 - p1
  let e2 := p3 - p1
  shape args (.smoothTriangle p1 p2 p3 e1 e2 n1 n2 n3) id

/-- `Shape::normal`: local normal mapped by the transposed inverse, `w`
zeroed, normalized. -/
def normal (s : Shape) (point : Vector) (u v : Option ℚ) : Vector :=
  let shape_point := s.transform_inv * point
  let shape_normal := s.geometry.normal shape_point u v
  let world_normal := s.transform_inv_tsp * shape_normal
  let world_normal : Vector := ⟨world_normal.x, world_normal.y, world_normal.z, 0⟩
  world_normal.normalize

/-- `Shape::lighting`: the Phong-style local illumination of the source. -/
def lighting (s : Shape) (light : PointLight) (point eye normal : Vector)
    (shadowed : Bool) : Color :=
  let color := s.material.pattern (s.material_inv * point)
  let effective_color := color * light.intensity
  let intensity := light.intensity
  let light_v := (light.origin - point).normalize
  let ambient := effective_color * s.material.ambient
  let light_dot_normal := light_v.dot normal
  let ds :=
    if ¬shadowed ∧ light_dot_normal ≥ 0 then
      let diffuse := effective_color * s.material.diffuse * light_dot_normal
      let reflect := (-light_v).reflect normal
      let reflect_dot_eye := reflect.dot eye
      let specular :=
        if reflect_dot_eye > 0 then
          intensity * s.material.specular * powf reflect_dot_eye s.material.shininess
        else Color.black
      (diffuse, specular)
    else (Color.black, Color.black)
  ambient + ds.1 + ds.2

end Shape

/-- `GroupKind` (shape.rs). -/
inductive GroupKind where
  | union : GroupKind
  | intersection : GroupKind
  | difference : GroupKind
  | aggregation : GroupKind
  deriving DecidableEq

/-- `GroupKind::allows_intersection`: the CSG truth table. -/
def GroupKind.allows_intersection (kind : GroupKind)
    (left_hit in_left in_right : Bool) : Bool :=
  match kind with
  | .union => (left_hit && !in_right) || (!left_hit && !in_left)
  | .intersection => (left_hit && in_right) || (!left_hit && in_left)
  | .difference => (left_hit && !in_right) || (!left_hit && in_left)
  | .aggregation => true

mutual
/-- `Element` (shape.rs): the recursive scene-graph node. -/
inductive Element where
  | composite (group : Group) : Element
  | primitive (shape : Shape) : Element
/-- `Group` (shape.rs). -/
inductive Group where
  | mk (kind : GroupKind) (bbox : BoundingBox) (children : List Element) : Group
end

/-- Field accessor for `Group.kind`. -/
def Group.kind : Group → GroupKind
  | .mk kind _ _ => kind

/-- Field accessor for `Group.bbox`. -/
def Group.bbox : Group → BoundingBox
  | .mk _ bbox _ => bbox

/-- Field accessor for `Group.children`. -/
def Group.children : Group → List Element
  | .mk _ _ children => children

mutual
/-- `Element::includes`. -/
def Element.includes : Element → Shape → Bool
  | .composite group, shape => group.includes shape
  | .primitive s, shape => s.id == shape.id
/-- `Group::includes` (`children.iter().any(...)`, unfolded structurally). -/
def Group.includes : Group → Shape → Bool
  | .mk _ _ children, shape => childrenInclude children shape
/-- The `any` fold over the children list. -/
def childrenInclude : List Element → Shape → Bool
  | [], _ => false
  | child :: rest, shape => child.includes shape || childrenInclude rest shape
end

/-- `Intersection` (intersection.rs): one ledger record.  The `shape` field is
a non-owning reference in the source; record equality is by `(t, shape-id)`. -/
structure Intersection where
  t : ℚ
  shape : Shape
  u : Option ℚ
  v : Option ℚ

/-- `impl PartialEq for Intersection`: `t` equal and shapes equal (shapes
compare by id). -/
def Intersection.ieq (a b : Intersection) : Bool :=
  a.t == b.t && a.shape.id == b.shape.id

/-- The ledger `Intersections` is a growable vector of records; `insert`
pushes at the back, so it is modelled as a plain list. -/
def Intersections := List Intersection

/-- `Intersections::sort` (`sort_by` on `t` via `partial_cmp`): the source's
`Vec::sort_by` is a stable sort by `t`, modelled by the stable insertion
sort. -/
def Intersections.sort (is : Intersections) : Intersections :=
  List.insertionSort (fun a b => a.t ≤ b.t) is

/-- `Intersections::hit`: first record with `t >= 0.0`. -/
def Intersections.hit (is : Intersections) : Option Intersection :=
  is.find? (fun i => 0 ≤ i.t)

/-- The source indexes `group.children[0]` (panics on an empty child list;
CSG groups are constructed with exactly two children). -/
def firstChildIncludes : List Element → Shape → Bool
  | [], _ => false
  | child :: _, shape => child.includes shape

/-- The loop body of `Intersections::filter_by_group`, with the `in_left` /
`in_right` state explicit; the retained records are produced in their original
order, as by the source's `result` vector. -/
def filterByGroupLoop (group : Group) :
    List Intersection → Bool → Bool → List Intersection
  | [], _, _ => []
  | i :: rest, in_left, in_right =>
    if ¬group.includes i.shape then
      i :: filterByGroupLoop group rest in_left in_right
    else
      let left_hit := firstChildIncludes group.children i.shape
      let tail :=
        if left_hit then filterByGroupLoop group rest (!in_left) in_right
        else filterByGroupLoop group rest in_left (!in_right)
      if group.kind.allows_intersection left_hit in_left in_right then i :: tail
      else tail

/-- `Intersections::filter_by_group`. -/
def Intersections.filter_by_group (is : Intersections) (group : Group) : Intersections :=
  filterByGroupLoop group is false false

namespace Geometry

/-- `Geometry::intersect_sphere`. -/
def intersect_sphere (shape : Shape) (ray : Ray) : List Intersection :=
  let sphere_to_ray := ray.origin - Vector.point 0 0 0
  let a := ray.direction.dot ray.direction
  let b := 2 * ray.direction.dot sphere_to_ray
  let c := sphere_to_ray.dot sphere_to_ray - 1
  let discriminant := b ^ 2 - 4 * a * c
  if discriminant < 0 then []
  else
    let t0 := (-b - ratSqrt discriminant) / (2 * a)
    let t1 := (-b + ratSqrt discriminant) / (2 * a)
    [⟨t0, shape, none, none⟩, ⟨t1, shape, none, none⟩]

/-- `Geometry::intersect_plane`. -/
def intersect_plane (shape : Shape) (ray : Ray) : List Intersection :=
  if approx ray.direction.y 0 then []
  else [⟨-ray.origin.y / ray.direction.y, shape, none, none⟩]

/-- `Geometry::intersect_cube`.  The axis function works on f64-with-specials
(the source multiplies numerators by `f64::INFINITY` for near-parallel rays);
an intersection record carrying a non-finite `t` — possible only when every
direction component is below `EPSILON` in magnitude — is idealized to `t = 0`
by `XF.toRat`. -/
def intersect_cube (shape : Shape) (ray : Ray) : List Intersection :=
  let xt := intersect_cube_axis ray.origin.x ray.direction.x (XF.fin (-1)) (XF.fin 1)
  let yt := intersect_cube_axis ray.origin.y ray.direction.y (XF.fin (-1)) (XF.fin 1)
  let zt := intersect_cube_axis ray.origin.z ray.direction.z (XF.fin (-1)) (XF.fin 1)
  let t_min := XF.xmax (XF.xmax xt.1 yt.1) zt.1
  let t_max := XF.xmin (XF.xmin xt.2 yt.2) zt.2
  if XF.xle t_min t_max then
    [⟨t_min.toRat, shape, none, none⟩, ⟨t_max.toRat, shape, none, none⟩]
  else []

/-- `Geometry::intersects_cap`. -/
def intersects_cap (ray : Ray) (t radius : ℚ) : Bool :=
  let x := ray.origin.x + t * ray.direction.x
  let z := ray.origin.z + t * ray.direction.z
  decide (x ^ 2 + z ^ 2 ≤ radius ^ 2)

/-- `Geometry::intersect_cap`. -/
def intersect_cap (shape : Shape) (ray : Ray) (min max min_radius max_radius : ℚ)
    (closed : Bool) : List Intersection :=
  if ¬closed ∨ approx ray.direction.y 0 then []
  else
    let t1 := (min - ray.origin.y) / ray.direction.y
    let lower : List Intersection :=
      if intersects_cap ray t1 min_radius then [⟨t1, shape, none, none⟩] else []
    let t2 := (max - ray.origin.y) / ray.direction.y
    let upper : List Intersection :=
      if intersects_cap ray t2 max_radius then [⟨t2, shape, none, none⟩] else []
    lower ++ upper

/-- `Geometry::intersect_cylinder`. -/
def intersect_cylinder (shape : Shape) (ray : Ray) (min max : ℚ) (closed : Bool) :
    List Intersection :=
  let o := ray.origin
  let d := ray.direction
  let a := d.x ^ 2 + d.z ^ 2
  let walls : List Intersection :=
    if ¬approx a 0 then
      let b := 2 * o.x * d.x + 2 * o.z * d.z
      let c := o.x ^ 2 + o.z ^ 2 - 1
      let discriminant := b ^ 2 - 4 * a * c
      if discriminant ≥ 0 then
        let t0 := (-b - ratSqrt discriminant) / (2 * a)
        let y0 := o.y + t0 * d.y
        let first : List Intersection :=
          if min < y0 ∧ y0 < max then [⟨t0, shape, none, none⟩] else []
        let t1 := (-b + ratSqrt discriminant) / (2 * a)
        let y1 := o.y + t1 * d.y
        let second : List Intersection :=
          if min < y1 ∧ y1 < max then [⟨t1, shape, none, none⟩] else []
        first ++ second
      else []
    else []
  walls ++ intersect_cap shape ray min max 1 1 closed

/-- `Geometry::intersect_cone`. -/
def intersect_cone (shape : Shape) (ray : Ray) (min max : ℚ) (closed : Bool) :
    List Intersection :=
  let o := ray.origin
  let d := ray.direction
  let a := d.x ^ 2 - d.y ^ 2 + d.z ^ 2
  let b := 2 * o.x * d.x - 2 * o.y * d.y + 2 * o.z * d.z
  let walls : List Intersection :=
    if ¬approx a 0 ∨ ¬approx b 0 then
      let c := o.x ^ 2 - o.y ^ 2 + o.z ^ 2
      if ¬approx a 0 then
        let discriminant := b ^ 2 - 4 * a * c
        if discriminant ≥ 0 then
          let t0 := (-b - ratSqrt discriminant) / (2 * a)
          let y0 := o.y + t0 * d.y
          let first : List Intersection :=
            if min < y0 ∧ y0 < max then [⟨t0, shape, none, none⟩] else []
          let t1 := (-b + ratSqrt discriminant) / (2 * a)
          let y1 := o.y + t1 * d.y
          let second : List Intersection :=
            if min < y1 ∧ y1 < max then [⟨t1, shape, none, none⟩] else []
          first ++ second
        else []
      else [⟨-c / (2 * b), shape, none, none⟩]
    else []
  walls ++ intersect_cap shape ray min max min max closed

/-- `Geometry::intersect_triangle` (Möller–Trumbore, shared by flat and
smooth triangles). -/
def intersect_triangle (shape : Shape) (ray : Ray) (p1 e1 e2 : Vector) :
    List Intersection :=
  let dir_cross_e2 := ray.direction.cross e2
  let determinant := e1.dot dir_cross_e2
  if |determinant| < EPSILON then []
  else
    let f := 1 / determinant
    let p1_to_origin := ray.origin - p1
    let u := f * p1_to_origin.dot dir_cross_e2
    if u < 0 ∨ u > 1 then []
    else
      let origin_cross_e1 := p1_to_origin.cross e1
      let v := f * ray.direction.dot origin_cross_e1
      if v < 0 ∨ u + v > 1 then []
      else [⟨f * e2.dot origin_cross_e1, shape, some u, some v⟩]

/-- `Geometry::intersect`: dispatch on the variant. -/
def intersect (g : Geometry) (shape : Shape) (ray : Ray) : List Intersection :=
  match g with
  | .sphere => intersect_sphere shape ray
  | .plane => intersect_plane shape ray
  | .cube => intersect_cube shape ray
  | .cylinder min max closed => intersect_cylinder shape ray min max closed
  | .cone min max closed => intersect_cone shape ray min max closed
  | .triangle p1 _ _ e1 e2 _ => intersect_triangle shape ray p1 e1 e2
  | .smoothTriangle p1 _ _ e1 e2 _ _ _ => intersect_triangle shape ray p1 e1 e2

end Geometry

/-- `Shape::intersect`: transform the ray into local space and delegate; the
records appended to the caller's ledger are returned. -/
def Shape.intersect (s : Shape) (ray : Ray) : List Intersection :=
  let ray := ray.transform s.transform_inv
  s.geometry.intersect s ray

mutual
/-- `Element::intersect`: records contributed to the caller's ledger. -/
def Element.intersect : Element → Ray → List Intersection
  | .composite group, ray => group.intersect ray
  | .primitive shape, ray => shape.intersect ray
/-- `Group::intersect`: bounding-box prune, then aggregate or CSG-filter. -/
def Group.intersect : Group → Ray → List Intersection
  | .mk kind bbox children, ray =>
    if bbox.intersects ray then
      match kind with
      | .aggregation => childrenIntersect children ray
      | _ =>
          let tmp := childrenIntersect children ray
          let tmp := Intersections.sort tmp
          Intersections.filter_by_group tmp (.mk kind bbox children)
    else []
/-- The children loop of `Group::intersect`, appending in order. -/
def childrenIntersect : List Element → Ray → List Intersection
  | [], _ => []
  | child :: rest, ray => child.intersect ray ++ childrenIntersect rest ray
end

/-- `schlick` (intersection.rs): Schlick's Fresnel approximation. -/
def schlick (eye normal : Vector) (n1 n2 : ℚ) : ℚ :=
  let cos := eye.dot normal
  if n1 > n2 then
    let n := n1 / n2
    let sin2_t := n ^ 2 * (1 - cos ^ 2)
    if sin2_t > 1 then 1
    else
      let cos := ratSqrt (1 - sin2_t)
      let r0 := ((n1 - n2) / (n1 + n2)) ^ 2
      r0 + (1 - r0) * (1 - cos) ^ 5
  else
    let r0 := ((n1 - n2) / (n1 + n2)) ^ 2
    r0 + (1 - r0) * (1 - cos) ^ 5

/-- `State` (intersection.rs): the shading state built by `prepare_state`. -/
structure State where
  t : ℚ
  shape : Shape
  point : Vector
  over_point : Vector
  under_point : Vector
  eye : Vector
  normal : Vector
  reflect : Vector
  inside : Bool
  n1 : ℚ
  n2 : ℚ
  reflectance : ℚ

/-- The `for` loop of `prepare_state` computing `n1`/`n2`: walks the ledger
with the `shapes` vector and the mirroring `set` (a `HashSet<&Shape>`, i.e. a
set of shape ids), reading the refractive index at the top of `shapes` just
before and just after the record equal to the chosen hit. -/
def n1n2Loop (self : Intersection) :
    List Intersection → List Shape → List ℕ → ℚ → ℚ → ℚ × ℚ
  | [], _, _, n1, n2 => (n1, n2)
  | i :: rest, shapes, set, n1, n2 =>
    let n1 :=
      if self.ieq i then
        ((shapes.getLast?.map fun s => s.material.refractive_index).getD 1)
      else n1
    let next :=
      if i.shape.id ∈ set then
        (shapes.filter fun s => s.id ≠ i.shape.id, set.erase i.shape.id)
      else
        (shapes ++ [i.shape], i.shape.id :: set)
    let n2 :=
      if self.ieq i then
        ((next.1.getLast?.map fun s => s.material.refractive_index).getD 1)
      else n2
    n1n2Loop self rest next.1 next.2 n1 n2

/-- `Intersection::prepare_state`. -/
def Intersection.prepare_state (self : Intersection) (ray : Ray)
    (intersections : List Intersection) : State :=
  let t := self.t
  let shape := self.shape
  let point := ray.position t
  let eye := -ray.direction
  let normal0 := shape.normal point self.u self.v
  let inside := decide (normal0.dot eye < 0)
  let normal := if normal0.dot eye < 0 then -normal0 else normal0
  let over_point := point + normal * EPSILON
  let under_point := point - normal * EPSILON
  let reflect := ray.direction.reflect normal
  let ns := n1n2Loop self intersections [] [] 1 1
  let reflectance := schlick eye normal ns.1 ns.2
  { t := t, shape := shape, point := point, over_point := over_point
    under_point := under_point, eye := eye, normal := normal, reflect := reflect
    inside := inside, n1 := ns.1, n2 := ns.2, reflectance := reflectance }

/-- `src/world.rs` `World`. -/
structure World where
  lights : List PointLight
  elements : List Element

/-- `World::intersect`: clears the reused buffer, then walks all top-level
elements (the same appending loop as over group children), so it is the pure
list of contributed records. -/
def World.intersect (w : World) (ray : Ray) : List Intersection :=
  childrenIntersect w.elements ray

/-- `World::is_shadowed`: shadow ray toward the light; shadowed iff the
nearest non-negative hit casts shadows and is closer than the light. -/
def World.is_shadowed (w : World) (light : PointLight) (point : Vector) : Bool :=
  let vector := light.origin - point
  let distance := vector.magnitude
  let ray : Ray := ⟨point, vector.normalize⟩
  let is := Intersections.sort (w.intersect ray)
  match Intersections.hit is with
  | some hit => hit.shape.casts_shadow && decide (hit.t < distance)
  | none => false

mutual
/-- `World::shade_hit`: sum the per-light contributions (the `for` loop is
`shadeHitLights` below, threading the accumulated color). -/
def World.shade_hit (w : World) (state : State) (fuel : ℤ) : Color :=
  shadeHitLights w state fuel w.lights Color.black
  termination_by (fuel.toNat, 2, 0)
  decreasing_by
    exact Prod.Lex.right _ (Prod.Lex.left _ _ (by omega))
/-- The body of `shade_hit`'s loop over `self.lights`: direct Phong term plus
reflected/refracted contributions, Fresnel-combined when the material is both
reflective and transparent. -/
def shadeHitLights (w : World) (state : State) (fuel : ℤ) :
    List PointLight → Color → Color
  | [], color => color
  | light :: rest, color =>
      let shadowed := w.is_shadowed light state.over_point
      let surface_color :=
        state.shape.lighting light state.over_point state.eye state.normal shadowed
      let reflected_color := w.reflected_color state fuel
      let refracted_color := w.refracted_color state fuel
      let contribution :=
        surface_color +
          (if state.shape.material.reflective > 0 ∧
              state.shape.material.transparency > 0 then
            reflected_color * state.reflectance +
              refracted_color * (1 - state.reflectance)
          else reflected_color + refracted_color)
      shadeHitLights w state fuel rest (color + contribution)
  termination_by lights _ => (fuel.toNat, 1, lights.length)
  decreasing_by
    · exact Prod.Lex.right _ (Prod.Lex.left _ _ (by omega))
    · exact Prod.Lex.right _ (Prod.Lex.left _ _ (by omega))
    · exact Prod.Lex.right _ (Prod.Lex.right _ (by simp))
/-- `World::reflected_color`: black when the fuel is exhausted or the material
is not reflective; otherwise recurse from `over_point` along the reflection
vector with `fuel - 1`. -/
def World.reflected_color (w : World) (state : State) (fuel : ℤ) : Color :=
  if h : fuel ≤ 0 ∨ state.shape.material.reflective = 0 then Color.black
  else
    let reflect_ray : Ray := ⟨state.over_point, state.reflect⟩
    let color := w.color_at reflect_ray (fuel - 1)
    color * state.shape.material.reflective
  termination_by (fuel.toNat, 0, 0)
  decreasing_by
    push_neg at h
    exact Prod.Lex.left _ _ (by omega)
/-- `World::refracted_color`: black when the fuel is exhausted, the material
is opaque, or under total internal reflection; otherwise recurse along the
Snell refraction direction from `under_point` with `fuel - 1`. -/
def World.refracted_color (w : World) (state : State) (fuel : ℤ) : Color :=
  if h : fuel ≤ 0 ∨ state.shape.material.transparency = 0 then Color.black
  else
    let n_ratio := state.n1 / state.n2
    let cos_i := state.eye.dot state.normal
    let sin2_t := n_ratio ^ 2 * (1 - cos_i ^ 2)
    if sin2_t > 1 then Color.black
    else
      let cos_t := ratSqrt (1 - sin2_t)
      let direction := state.normal * (n_ratio * cos_i - cos_t) - state.eye * n_ratio
      let refract_ray : Ray := ⟨state.under_point, direction⟩
      w.color_at refract_ray (fuel - 1) * state.shape.material.transparency
  termination_by (fuel.toNat, 0, 0)
  decreasing_by
    push_neg at h
    exact Prod.Lex.left _ _ (by omega)
/-- `World::color_at`: intersect, sort, take the hit; black when the ray hits
nothing, else build the shading state and shade. -/
def World.color_at (w : World) (ray : Ray) (fuel : ℤ) : Color :=
  let is := Intersections.sort (w.intersect ray)
  match Intersections.hit is with
  | some hit => w.shade_hit (hit.prepare_state ray is) fuel
  | none => Color.black
  termination_by (fuel.toNat, 3, 0)
  decreasing_by
    exact Prod.Lex.right _ (Prod.Lex.left _ _ (by omega))
end

/-! Spec-side definitions (written from the spec's words, for comparison with
the source-side functions above). -/

/-- Spec-side (claim C1 wording): one toggling step of the stack of
"currently entered" shapes — a shape's first occurrence pushes it, its
re-encounter removes it (membership by shape identity). -/
def toggleStep (stack : List Shape) (i : Intersection) : List Shape :=
  if i.shape.id ∈ stack.map (fun s => s.id) then
    stack.filter fun s => s.id ≠ i.shape.id
  else stack ++ [i.shape]

/-- Spec-side: the entered-shapes stack after walking a prefix of the ledger,
starting from a given stack. -/
def toggleStack (stack : List Shape) : List Intersection → List Shape
  | [] => stack
  | i :: rest => toggleStack (toggleStep stack i) rest

/-- Spec-side: the refractive index read at the top of the entered stack
(`1.0` if the stack is empty).  The top of the `shapes` vector is its last
element. -/
def topRefr (stack : List Shape) : ℚ :=
  (stack.getLast?.map fun s => s.material.refractive_index).getD 1

/-- Spec-side (claim C2 wording): the CSG filter described by the spec — keep
a record iff the kind's truth table holds of the `in_left`/`in_right` state
before the record, where `left_hit` is given by the supplied classifier, and
the flag matching each record toggles after it regardless of keeping. -/
def csgFilterSpec (left_hit : Intersection → Bool) (kind : GroupKind) :
    List Intersection → Bool → Bool → List Intersection
  | [], _, _ => []
  | i :: rest, in_left, in_right =>
    let lh := left_hit i
    let keep :=
      match kind with
      | .union => (lh && !in_right) || (!lh && !in_left)
      | .intersection => (lh && in_right) || (!lh && in_left)
      | .difference => (lh && !in_right) || (!lh && in_left)
      | .aggregation => true
    let tail :=
      if lh then csgFilterSpec left_hit kind rest (!in_left) in_right
      else csgFilterSpec left_hit kind rest in_left (!in_right)
    if keep then i :: tail else tail

/-! Concrete scene fragments used by the claims' documented examples. -/

/-- A glass-like material of refractive index `n` (the documented refraction
tests use `transparency: GLASS = 1.52`). -/
def glassMaterial (n : ℚ) : Material :=
  { Material.default with transparency := 152 / 100, refractive_index := n }

/-- Outermost concentric glass sphere: scaled by 2, refractive index 1.5. -/
def glassSphereA : Shape :=
  Shape.sphere { ShapeArgs.default with
    transform := Matrix.scaling 2 2 2, material := glassMaterial (3 / 2) } 0

/-- Middle glass sphere: translated by -0.25 z, refractive index 2.0. -/
def glassSphereB : Shape :=
  Shape.sphere { ShapeArgs.default with
    transform := Matrix.translation 0 0 (-1 / 4), material := glassMaterial 2 } 1

/-- Inner glass sphere: translated by 0.25 z, refractive index 2.5. -/
def glassSphereC : Shape :=
  Shape.sphere { ShapeArgs.default with
    transform := Matrix.translation 0 0 (1 / 4), material := glassMaterial (5 / 2) } 2

/-- The ray through the three concentric glass spheres. -/
def glassRay : Ray :=
  { origin := Vector.point 0 0 (-4), direction := Vector.vector 0 0 1 }

/-- The six ordered hits of `glassRay` against the three concentric spheres
(the documented `finding_n1_and_n2_at_intersections` configuration). -/
def glassLedger : List Intersection :=
  [⟨2, glassSphereA, none, none⟩,
   ⟨11 / 4, glassSphereB, none, none⟩,
   ⟨13 / 4, glassSphereC, none, none⟩,
   ⟨19 / 4, glassSphereB, none, none⟩,
   ⟨21 / 4, glassSphereC, none, none⟩,
   ⟨6, glassSphereA, none, none⟩]

/-- Default sphere used by the CSG filtering example. -/
def csgSphere : Shape := Shape.sphere ShapeArgs.default 0

/-- Default cube used by the CSG filtering example. -/
def csgCube : Shape := Shape.cube ShapeArgs.default 1

/-- The 2-child group (sphere left, cube right) of the CSG example, for a
given combination kind. -/
def csgGroup (kind : GroupKind) : Group :=
  .mk kind BoundingBox.empty
    [Element.primitive csgSphere, Element.primitive csgCube]

/-- The four crossing records at `t = 1,2,3,4` (sphere, cube, sphere, cube). -/
def csgLedger : List Intersection :=
  [⟨1, csgSphere, none, none⟩, ⟨2, csgCube, none, none⟩,
   ⟨3, csgSphere, none, none⟩, ⟨4, csgCube, none, none⟩]

/-- A shadow-casting occluder: the plane `y = 1` (a default plane translated
up by one). -/
def occluderOn : Shape :=
  Shape.plane { ShapeArgs.default with transform := Matrix.translation 0 1 0 } 0

/-- The same occluder with its shadow flag disabled. -/
def occluderOff : Shape :=
  Shape.plane { ShapeArgs.default with
    transform := Matrix.translation 0 1 0, casts_shadow := false } 0

/-- World containing only the shadow-casting occluder. -/
def shadowWorldOn : World :=
  { lights := [], elements := [Element.primitive occluderOn] }

/-- World containing only the non-shadow-casting occluder. -/
def shadowWorldOff : World :=
  { lights := [], elements := [Element.primitive occluderOff] }

/-- The light above the occluder. -/
def shadowLight : PointLight :=
  { intensity := Color.white, origin := Vector.point 0 3 0 }

/-- The shading point below the occluder (directly behind it relative to the
light). -/
def shadowPoint : Vector := Vector.point 0 0 0

/-- A default plane with the identity placement (claim C3's failing input). -/
def identityPlane : Shape := Shape.plane ShapeArgs.default 0

/-- A ray hitting `identityPlane` from above at `t = 1`. -/
def downRay : Ray :=
  { origin := Vector.point 0 1 0, direction := Vector.vector 0 (-1) 0 }

/-- The invariant tying `prepare_state`'s `shapes` vector to its mirroring
`HashSet` of shape ids: the set holds exactly the ids of the stacked shapes,
without duplicates. -/
def StackInv (shapes : List Shape) (set : List ℕ) : Prop :=
  set.Nodup ∧ (shapes.map fun s => s.id).Nodup ∧
    ∀ a, a ∈ set ↔ a ∈ shapes.map fun s => s.id

/-! Helper lemmas. -/

theorem n1n2Loop_no_match (self : Intersection) :
    ∀ (is : List Intersection) (shapes : List Shape) (set : List ℕ) (n1 n2 : ℚ),
      (∀ i ∈ is, self.ieq i = false) →
      n1n2Loop self is shapes set n1 n2 = (n1, n2) := by
  intro is
  induction is with
  | nil => intro shapes set n1 n2 _; rfl
  | cons i rest ih =>
    intro shapes set n1 n2 h
    have hi : self.ieq i = false := h i (by simp)
    rw [n1n2Loop]
    simp only [hi, Bool.false_eq_true, if_false]
    exact ih _ _ _ _ fun j hj => h j (by simp [hj])

theorem mapId_filter (shapes : List Shape) (a : ℕ) :
    ((shapes.filter fun s => s.id ≠ a).map fun s => s.id) =
      (shapes.map fun s => s.id).filter fun b => b ≠ a := by
  induction shapes with
  | nil => rfl
  | cons s rest ih =>
    simp only [decide_not] at ih ⊢
    by_cases hs : s.id = a <;> simp [hs, ih]

theorem stackInv_step (shapes : List Shape) (set : List ℕ) (i : Intersection)
    (hinv : StackInv shapes set) :
    (if i.shape.id ∈ set then
        (shapes.filter fun s => s.id ≠ i.shape.id, set.erase i.shape.id)
      else (shapes ++ [i.shape], i.shape.id :: set)) =
      (toggleStep shapes i,
        if i.shape.id ∈ set then set.erase i.shape.id else i.shape.id :: set) ∧
      StackInv (toggleStep shapes i)
        (if i.shape.id ∈ set then set.erase i.shape.id else i.shape.id :: set) := by
  obtain ⟨hset, hmap, hmem⟩ := hinv
  by_cases hin : i.shape.id ∈ set
  · have hin2 : i.shape.id ∈ shapes.map fun s => s.id := (hmem _).mp hin
    have htog : toggleStep shapes i = shapes.filter fun s => s.id ≠ i.shape.id := by
      simp [toggleStep, hin2]
    rw [if_pos hin, if_pos hin, htog]
    refine ⟨rfl, List.Nodup.erase _ hset, ?_, ?_⟩
    · rw [mapId_filter]
      exact hmap.filter _
    · intro a
      rw [hset.mem_erase_iff, mapId_filter, List.mem_filter]
      constructor
      · rintro ⟨hne, ha⟩; exact ⟨(hmem a).mp ha, by simpa using hne⟩
      · rintro ⟨ha, hne⟩; exact ⟨by simpa using hne, (hmem a).mpr ha⟩
  · have hin2 : i.shape.id ∉ shapes.map fun s => s.id := fun hh => hin ((hmem _).mpr hh)
    have htog : toggleStep shapes i = shapes ++ [i.shape] := by
      simp [toggleStep, hin2]
    rw [if_neg hin, if_neg hin, htog]
    refine ⟨rfl, List.Nodup.cons hin hset, ?_, ?_⟩
    · simp only [List.map_append, List.map_cons, List.map_nil]
      simp [List.nodup_append, hmap, hin2]
    · intro a
      simp only [List.mem_cons, List.map_append, List.map_cons, List.map_nil,
        List.mem_append]
      rw [hmem a]
      constructor
      · rintro (rfl | ha)
        · exact Or.inr (by simp)
        · exact Or.inl ha
      · rintro (ha | ha)
        · exact Or.inr ha
        · simp at ha; exact Or.inl ha

theorem n1n2Loop_split (self mid : Intersection) (post : List Intersection)
    (hmid : self.ieq mid = true) (hpost : ∀ i ∈ post, self.ieq i = false) :
    ∀ (pre : List Intersection) (shapes : List Shape) (set : List ℕ) (n1 n2 : ℚ),
      StackInv shapes set →
      (∀ i ∈ pre, self.ieq i = false) →
      n1n2Loop self (pre ++ mid :: post) shapes set n1 n2 =
        (topRefr (toggleStack shapes pre),
          topRefr (toggleStep (toggleStack shapes pre) mid)) := by
  intro pre
  induction pre with
  | nil =>
    intro shapes set n1 n2 hinv _
    obtain ⟨hstep, hinv2⟩ := stackInv_step shapes set mid hinv
    simp only [List.nil_append, toggleStack]
    rw [n1n2Loop]
    simp only [hmid, if_true]
    rw [hstep]
    exact n1n2Loop_no_match self post _ _ _ _ hpost
  | cons p rest ih =>
    intro shapes set n1 n2 hinv hpre
    have hp : self.ieq p = false := hpre p (by simp)
    obtain ⟨hstep, hinv2⟩ := stackInv_step shapes set p hinv
    simp only [List.cons_append, toggleStack]
    rw [n1n2Loop]
    simp only [hp, Bool.false_eq_true, if_false]
    rw [hstep]
    exact ih (toggleStep shapes p) _ n1 n2 hinv2 fun i hi => hpre i (by simp [hi])

theorem filterLoop_eq_spec (g : Group) :
    ∀ (is : List Intersection) (in_left in_right : Bool),
      (∀ i ∈ is, g.includes i.shape = true) →
      filterByGroupLoop g is in_left in_right =
        csgFilterSpec (fun i => firstChildIncludes g.children i.shape) g.kind is
          in_left in_right := by
  intro is
  induction is with
  | nil => intros; rfl
  | cons i rest ih =>
    intro inl inr h
    have hi : g.includes i.shape = true := h i (by simp)
    have ht : ∀ inl2 inr2, filterByGroupLoop g rest inl2 inr2 =
        csgFilterSpec (fun i => firstChildIncludes g.children i.shape) g.kind rest
          inl2 inr2 :=
      fun _ _ => ih _ _ fun j hj => h j (by simp [hj])
    rw [filterByGroupLoop]
    conv_rhs => rw [csgFilterSpec.eq_def]
    obtain ⟨kind, bb, ch⟩ := g
    cases kind <;>
      simp only [hi, not_true_eq_false, Bool.not_eq_true, if_false, Group.kind,
        Group.children, GroupKind.allows_intersection, ht]

theorem filterLoop_outsiders (g : Group) :
    ∀ (is : List Intersection) (inl inr : Bool),
      (filterByGroupLoop g is inl inr).filter (fun i => !(g.includes i.shape)) =
        is.filter fun i => !(g.includes i.shape) := by
  intro is
  induction is with
  | nil => intros; rfl
  | cons i rest ih =>
    intro inl inr
    rw [filterByGroupLoop]
    by_cases hi : g.includes i.shape = true
    · rw [if_neg (by simp [hi]), List.filter_cons_of_neg (by simp [hi])]
      dsimp only
      split <;> split <;> simp [hi, ih]
    · have hi2 : g.includes i.shape = false := by simpa using hi
      rw [if_pos (by simp [hi2])]
      simp [hi2, ih]

theorem filterLoop_insiders (g : Group) :
    ∀ (is : List Intersection) (inl inr : Bool),
      (filterByGroupLoop g is inl inr).filter (fun i => g.includes i.shape) =
        filterByGroupLoop g (is.filter fun i => g.includes i.shape) inl inr := by
  intro is
  induction is with
  | nil => intros; rfl
  | cons i rest ih =>
    intro inl inr
    rw [filterByGroupLoop]
    by_cases hi : g.includes i.shape = true
    · rw [if_neg (by simp [hi]), List.filter_cons_of_pos (by simpa using hi)]
      conv_rhs => rw [filterByGroupLoop, if_neg (by simp [hi])]
      dsimp only
      split <;> split <;> simp [hi, ih]
    · have hi2 : g.includes i.shape = false := by simpa using hi
      rw [if_pos (by simp [hi2]), List.filter_cons_of_neg (by simp [hi2])]
      simp [hi2, ih]

theorem find_nonneg_min :
    ∀ (l : List Intersection),
      List.Pairwise (fun a b : Intersection => a.t ≤ b.t) l →
      ∀ h : Intersection, l.find? (fun i => 0 ≤ i.t) = some h →
        0 ≤ h.t ∧ h ∈ l ∧ ∀ i ∈ l, 0 ≤ i.t → h.t ≤ i.t := by
  intro l
  induction l with
  | nil => intro _ h hf; simp at hf
  | cons a tl ih =>
    intro hp h hf
    rw [List.pairwise_cons] at hp
    by_cases ha : (0 : ℚ) ≤ a.t
    · rw [List.find?_cons_of_pos _ (by simpa using ha)] at hf
      obtain rfl : a = h := by simpa using hf
      refine ⟨ha, by simp, ?_⟩
      intro i hi _
      rcases List.mem_cons.mp hi with rfl | hi2
      · exact le_refl _
      · exact hp.1 i hi2
    · rw [List.find?_cons_of_neg _ (by simpa using ha)] at hf
      obtain ⟨h1, h2, h3⟩ := ih hp.2 h hf
      refine ⟨h1, by simp [h2], ?_⟩
      intro i hi hit
      rcases List.mem_cons.mp hi with rfl | hi2
      · exact absurd hit ha
      · exact h3 i hi2 hit

theorem sort_pairwise (is : List Intersection) :
    List.Pairwise (fun a b : Intersection => a.t ≤ b.t) (Intersections.sort is) := by
  haveI : IsTotal Intersection (fun a b => a.t ≤ b.t) := ⟨fun a b => le_total a.t b.t⟩
  haveI : IsTrans Intersection (fun a b => a.t ≤ b.t) :=
    ⟨fun a b c hab hbc => le_trans hab hbc⟩
  exact List.sorted_insertionSort _ is

theorem hit_sort_min (is : List Intersection) (h : Intersection)
    (hf : Intersections.hit (Intersections.sort is) = some h) :
    0 ≤ h.t ∧ h ∈ is ∧ ∀ i ∈ is, 0 ≤ i.t → h.t ≤ i.t := by
  have hperm := List.perm_insertionSort (fun a b : Intersection => a.t ≤ b.t) is
  obtain ⟨h1, h2, h3⟩ := find_nonneg_min _ (sort_pairwise is) h hf
  exact ⟨h1, hperm.subset h2, fun i hi ht => h3 i (hperm.mem_iff.mpr hi) ht⟩

theorem hit_sort_none (is : List Intersection)
    (hf : Intersections.hit (Intersections.sort is) = none) :
    ∀ i ∈ is, ¬ (0 ≤ i.t) := by
  have hperm := List.perm_insertionSort (fun a b : Intersection => a.t ≤ b.t) is
  rw [Intersections.hit, List.find?_eq_none] at hf
  intro i hi ht
  exact absurd (by simpa using ht) (by simpa using hf i (hperm.mem_iff.mpr hi))

/-! The claims. -/

unseal Rat.add Rat.mul Rat.inv Rat.sub in
/-- C1: for every chosen intersection occurring in the supplied ledger (once,
by `(t, shape-identity)` equality), `prepare_state` computes `n1` as the
refractive index of the shape on top of the "currently entered" stack just
before the chosen hit (1 if the stack is empty) and `n2` as the top just
after, the stack being maintained by set-membership toggling (first occurrence
pushes, re-encounter removes); and on the three concentric glass spheres of
refractive indices 1.5, 2.0, 2.5 with six ordered hits along one ray, the
`(n1, n2)` pairs are `(1,1.5),(1.5,2),(2,2.5),(2.5,2.5),(2.5,1.5),(1.5,1)`. -/
theorem prepare_state_refraction_indices :
    (∀ (self mid : Intersection) (ray : Ray) (pre post : List Intersection),
      self.ieq mid = true →
      (∀ i ∈ pre, self.ieq i = false) →
      (∀ i ∈ post, self.ieq i = false) →
      (self.prepare_state ray (pre ++ mid :: post)).n1 =
          topRefr (toggleStack [] pre) ∧
        (self.prepare_state ray (pre ++ mid :: post)).n2 =
          topRefr (toggleStep (toggleStack [] pre) mid)) ∧
    (glassLedger.map fun i =>
        ((i.prepare_state glassRay glassLedger).n1,
          (i.prepare_state glassRay glassLedger).n2)) =
      [(1, 3 / 2), (3 / 2, 2), (2, 5 / 2), (5 / 2, 5 / 2), (5 / 2, 3 / 2),
        (3 / 2, 1)] := by
  constructor
  · intro self mid ray pre post hmid hpre hpost
    have hinv : StackInv [] [] := ⟨List.nodup_nil, by simp, by simp⟩
    have hsplit := n1n2Loop_split self mid post hmid hpost pre [] [] 1 1 hinv hpre
    constructor
    · show (n1n2Loop self (pre ++ mid :: post) [] [] 1 1).1 = _
      rw [hsplit]
    · show (n1n2Loop self (pre ++ mid :: post) [] [] 1 1).2 = _
      rw [hsplit]
  · decide

unseal Rat.add Rat.mul Rat.inv Rat.sub in
/-- Witness for C1: the second of the six documented hits, with its ledger
split around it, yields `n1 = 1.5` (top of the stack after entering sphere A)
and `n2 = 2` (after also entering sphere B). -/
theorem prepare_state_refraction_indices_witness :
    (Intersection.prepare_state ⟨11 / 4, glassSphereB, none, none⟩ glassRay
        glassLedger).n1 =
      topRefr (toggleStack [] [⟨2, glassSphereA, none, none⟩]) ∧
    (Intersection.prepare_state ⟨11 / 4, glassSphereB, none, none⟩ glassRay
        glassLedger).n2 =
      topRefr (toggleStep (toggleStack [] [⟨2, glassSphereA, none, none⟩])
        ⟨11 / 4, glassSphereB, none, none⟩) :=
  prepare_state_refraction_indices.1 ⟨11 / 4, glassSphereB, none, none⟩
    ⟨11 / 4, glassSphereB, none, none⟩ glassRay [⟨2, glassSphereA, none, none⟩]
    [⟨13 / 4, glassSphereC, none, none⟩, ⟨19 / 4, glassSphereB, none, none⟩,
      ⟨21 / 4, glassSphereC, none, none⟩, ⟨6, glassSphereA, none, none⟩]
    (by decide) (by decide) (by decide)

unseal Rat.add Rat.mul Rat.inv Rat.sub in
/-- C2: for a group of one of the three boolean kinds whose records all belong
to the group, `filter_by_group` keeps exactly the records selected by the
kind's truth table evaluated on the `in_left`/`in_right` state before the
record (toggled after every record regardless of keeping, `left_hit` meaning
the first child includes the record's shape); and on the documented
sphere/cube group with four crossings at `t = 1,2,3,4`, `Union` keeps indices
`{0,3}`, `Intersection` keeps `{1,2}`, `Difference` keeps `{0,1}`. -/
theorem filter_by_group_truth_table :
    (∀ (g : Group) (is : List Intersection),
      g.kind ≠ GroupKind.aggregation →
      g.children.length = 2 →
      (∀ i ∈ is, g.includes i.shape = true) →
      Intersections.filter_by_group is g =
        csgFilterSpec (fun i => firstChildIncludes g.children i.shape) g.kind is
          false false) ∧
    ((Intersections.filter_by_group csgLedger (csgGroup .union)).map fun i =>
        (i.t, i.shape.id)) = [(1, 0), (4, 1)] ∧
    ((Intersections.filter_by_group csgLedger (csgGroup .intersection)).map
        fun i => (i.t, i.shape.id)) = [(2, 1), (3, 0)] ∧
    ((Intersections.filter_by_group csgLedger (csgGroup .difference)).map
        fun i => (i.t, i.shape.id)) = [(1, 0), (2, 1)] := by
  refine ⟨fun g is _ _ h => filterLoop_eq_spec g is false false h, ?_, ?_, ?_⟩ <;>
    decide

unseal Rat.add Rat.mul Rat.inv Rat.sub in
/-- Witness for C2: the truth-table characterization applied to the concrete
union group over the four-record ledger. -/
theorem filter_by_group_truth_table_witness :
    Intersections.filter_by_group csgLedger (csgGroup .union) =
      csgFilterSpec
        (fun i => firstChildIncludes (csgGroup .union).children i.shape)
        (csgGroup .union).kind csgLedger false false :=
  filter_by_group_truth_table.1 (csgGroup .union) csgLedger (by decide)
    (by decide) (by decide)

/-- C9: records whose shape the group does not include pass through
`filter_by_group` unchanged and in their original relative positions, and the
group's own records are filtered exactly as if the foreign records were absent
(foreign records neither read nor toggle the `in_left`/`in_right` state). -/
theorem filter_by_group_foreign_records (g : Group) (is : List Intersection) :
    (Intersections.filter_by_group is g).filter
        (fun i => !(g.includes i.shape)) =
      is.filter (fun i => !(g.includes i.shape)) ∧
    (Intersections.filter_by_group is g).filter (fun i => g.includes i.shape) =
      Intersections.filter_by_group (is.filter fun i => g.includes i.shape) g :=
  ⟨filterLoop_outsiders g is false false, filterLoop_insiders g is false false⟩

/-- C10: when the chosen intersection does not occur, by `(t, shape-identity)`
equality, among the ledger's records, the resulting state has `n1 = 1` and
`n2 = 1`. -/
theorem prepare_state_absent_hit (self : Intersection) (ray : Ray)
    (is : List Intersection) (h : ∀ i ∈ is, self.ieq i = false) :
    (self.prepare_state ray is).n1 = 1 ∧ (self.prepare_state ray is).n2 = 1 := by
  constructor
  · show (n1n2Loop self is [] [] 1 1).1 = 1
    rw [n1n2Loop_no_match self is [] [] 1 1 h]
  · show (n1n2Loop self is [] [] 1 1).2 = 1
    rw [n1n2Loop_no_match self is [] [] 1 1 h]

/-- Witness for C10: the empty ledger. -/
theorem prepare_state_absent_hit_witness :
    (Intersection.prepare_state ⟨4, csgSphere, none, none⟩ glassRay []).n1 = 1 ∧
    (Intersection.prepare_state ⟨4, csgSphere, none, none⟩ glassRay []).n2 = 1 :=
  prepare_state_absent_hit ⟨4, csgSphere, none, none⟩ glassRay [] (by simp)

/-- C6: `reflected_color` and `refracted_color` called with `fuel = 0` return
black for every world and shading state, regardless of the material's
`reflective`, `transparency`, or `refractive_index` values. -/
theorem reflected_refracted_black_at_fuel_zero (w : World) (state : State) :
    w.reflected_color state 0 = Color.black ∧
      w.refracted_color state 0 = Color.black := by
  constructor
  · rw [World.reflected_color]; simp
  · rw [World.refracted_color]; simp

/-- C7: the shading recursion is total (the functions below are well-defined
total Lean functions, by well-founded recursion on the fuel), every recursive
bounce is made with exactly `fuel - 1`, and no recursive call is made when the
fuel is exhausted or the relevant material coefficient is zero: the three
guarded unfolding equations of `color_at`, `reflected_color`, and
`refracted_color`. -/
theorem color_at_fuel_recursion (w : World) (ray : Ray) (state : State)
    (fuel : ℤ) :
    (w.color_at ray fuel =
      match Intersections.hit (Intersections.sort (w.intersect ray)) with
      | some hit =>
          w.shade_hit
            (hit.prepare_state ray (Intersections.sort (w.intersect ray))) fuel
      | none => Color.black) ∧
    (w.reflected_color state fuel =
      if fuel ≤ 0 ∨ state.shape.material.reflective = 0 then Color.black
      else
        w.color_at ⟨state.over_point, state.reflect⟩ (fuel - 1) *
          state.shape.material.reflective) ∧
    (w.refracted_color state fuel =
      if fuel ≤ 0 ∨ state.shape.material.transparency = 0 then Color.black
      else
        let n_ratio := state.n1 / state.n2
        let cos_i := state.eye.dot state.normal
        let sin2_t := n_ratio ^ 2 * (1 - cos_i ^ 2)
        if sin2_t > 1 then Color.black
        else
          let cos_t := ratSqrt (1 - sin2_t)
          let direction :=
            state.normal * (n_ratio * cos_i - cos_t) - state.eye * n_ratio
          w.color_at ⟨state.under_point, direction⟩ (fuel - 1) *
            state.shape.material.transparency) := by
  refine ⟨?_, ?_, ?_⟩
  · rw [World.color_at]
  · rw [World.reflected_color]
    by_cases h : fuel ≤ 0 ∨ state.shape.material.reflective = 0 <;> simp [h]
  · rw [World.refracted_color]
    by_cases h : fuel ≤ 0 ∨ state.shape.material.transparency = 0 <;> simp [h]

unseal Rat.add Rat.mul Rat.inv Rat.sub in
/-- C5: the Schlick reflectance is 1 under total internal reflection
(`n1 > n2` and `(n1/n2)² (1 - cos²θ) > 1`); otherwise it is the blend
`r0 + (1 - r0)(1 - cos)⁵` with `r0 = ((n1-n2)/(n1+n2))²`, where `cos` is the
eye-normal cosine when `n1 ≤ n2` and the transmission cosine when `n1 > n2`;
at normal incidence entering refractive index 1.5 from 1.0 the reflectance is
`0.04`. -/
theorem schlick_reflectance_cases (eye normal : Vector) (n1 n2 : ℚ) :
    (n1 > n2 → (n1 / n2) ^ 2 * (1 - eye.dot normal ^ 2) > 1 →
      schlick eye normal n1 n2 = 1) ∧
    (¬n1 > n2 →
      schlick eye normal n1 n2 =
        ((n1 - n2) / (n1 + n2)) ^ 2 +
          (1 - ((n1 - n2) / (n1 + n2)) ^ 2) * (1 - eye.dot normal) ^ 5) ∧
    (n1 > n2 → ¬(n1 / n2) ^ 2 * (1 - eye.dot normal ^ 2) > 1 →
      schlick eye normal n1 n2 =
        ((n1 - n2) / (n1 + n2)) ^ 2 +
          (1 - ((n1 - n2) / (n1 + n2)) ^ 2) *
            (1 - ratSqrt (1 - (n1 / n2) ^ 2 * (1 - eye.dot normal ^ 2))) ^ 5) ∧
    schlick (Vector.vector 0 0 (-1)) (Vector.vector 0 0 (-1)) 1 (3 / 2) =
      1 / 25 := by
  refine ⟨?_, ?_, ?_, by decide⟩
  · intro h1 h2
    rw [schlick]
    simp only [h1, if_true, h2]
  · intro h1
    rw [schlick]
    simp [h1]
  · intro h1 h2
    rw [schlick]
    simp [h1, h2]

unseal Rat.add Rat.mul Rat.inv Rat.sub in
/-- Witness for C5: total internal reflection at a concrete grazing
configuration, and the blend case at normal incidence with `n1 ≤ n2`. -/
theorem schlick_reflectance_cases_witness :
    schlick (Vector.vector 0 0 (3 / 5)) (Vector.vector 0 0 1) (3 / 2) 1 = 1 ∧
    schlick (Vector.vector 0 0 (-1)) (Vector.vector 0 0 (-1)) 1 (3 / 2) =
      ((1 - 3 / 2) / (1 + 3 / 2)) ^ 2 +
        (1 - ((1 - 3 / 2) / (1 + 3 / 2)) ^ 2) *
          (1 - Vector.dot (Vector.vector 0 0 (-1)) (Vector.vector 0 0 (-1))) ^ 5 :=
  ⟨(schlick_reflectance_cases (Vector.vector 0 0 (3 / 5)) (Vector.vector 0 0 1)
      (3 / 2) 1).1 (by decide) (by decide),
    (schlick_reflectance_cases (Vector.vector 0 0 (-1)) (Vector.vector 0 0 (-1))
      1 (3 / 2)).2.1 (by decide)⟩

unseal Rat.add Rat.mul Rat.inv Rat.sub in
/-- C8 counterexample: the open (`closed = false`) cone does not get the
closed variant's box opened on the y axis only — its x extent (and z extent)
also becomes infinite. -/
theorem cone_open_bbox_counterexample :
    Geometry.bbox (.cone (-1) 1 false) ≠
      BoundingBox.new (XVec.point (XF.fin (-1)) XF.ninf (XF.fin (-1)))
        (XVec.point (XF.fin 1) XF.pinf (XF.fin 1)) ∧
    (Geometry.bbox (.cone (-1) 1 false)).min.x ≠
      (Geometry.bbox (.cone (-1) 1 true)).min.x := by
  decide

/-- C8 amended: the open cylinder's box is the closed one made infinite on the
y axis only (x and z extents stay `[-1, 1]`); the open cone's box is infinite
on all three axes. -/
theorem open_bbox_by_variant (qmin qmax : ℚ) :
    Geometry.bbox (.cylinder qmin qmax false) =
        BoundingBox.new (XVec.point (XF.fin (-1)) XF.ninf (XF.fin (-1)))
          (XVec.point (XF.fin 1) XF.pinf (XF.fin 1)) ∧
      Geometry.bbox (.cone qmin qmax false) =
        BoundingBox.new (XVec.point XF.ninf XF.ninf XF.ninf)
          (XVec.point XF.pinf XF.pinf XF.pinf) :=
  ⟨rfl, rfl⟩

unseal Rat.add Rat.mul Rat.inv Rat.sub in
/-- C3 (code bug witness): a default plane with the identity placement is hit
by the ray from `(0,1,0)` toward `(0,-1,0)` at `t = 1`, i.e. at the world
point `(0,0,0)`; yet the shape's precomputed world bounding box is the empty
box (the IEEE product of the infinite local-box corners with the matrix's
zero entries is NaN, and Rust's `f64::min`/`f64::max` then drop every NaN
corner), so it contains no point at all — the box does not enclose the
returned intersection. -/
theorem plane_bbox_excludes_hit_point :
    ((identityPlane.intersect downRay).map fun i => i.t) = [1] ∧
    downRay.position 1 = Vector.point 0 0 0 ∧
    identityPlane.bbox = BoundingBox.empty ∧
    identityPlane.bbox.contains ((downRay.position 1).toXVec) = false := by
  decide

unseal Rat.add Rat.mul Rat.inv Rat.sub in
/-- C4: `is_shadowed` is true iff the hit of the sorted ledger of the shadow
ray (from the point toward the light) exists, casts shadows, and lies strictly
closer than the light; that hit is a nearest non-negative record of the
ledger (and when there is none, no record has non-negative `t`); and on the
concrete occluded configuration, disabling the occluder's shadow flag makes
the same point unshadowed. -/
theorem is_shadowed_characterization :
    (∀ (w : World) (light : PointLight) (point : Vector),
      w.is_shadowed light point = true ↔
        ∃ h, Intersections.hit (Intersections.sort
            (w.intersect ⟨point, (light.origin - point).normalize⟩)) = some h ∧
          h.shape.casts_shadow = true ∧
          h.t < (light.origin - point).magnitude) ∧
    (∀ (w : World) (ray : Ray) (h : Intersection),
      Intersections.hit (Intersections.sort (w.intersect ray)) = some h →
        0 ≤ h.t ∧ h ∈ w.intersect ray ∧
          ∀ i ∈ w.intersect ray, 0 ≤ i.t → h.t ≤ i.t) ∧
    (∀ (w : World) (ray : Ray),
      Intersections.hit (Intersections.sort (w.intersect ray)) = none →
        ∀ i ∈ w.intersect ray, ¬0 ≤ i.t) ∧
    shadowWorldOn.is_shadowed shadowLight shadowPoint = true ∧
    shadowWorldOff.is_shadowed shadowLight shadowPoint = false := by
  refine ⟨?_, fun w ray h hf => hit_sort_min _ h hf,
    fun w ray hf => hit_sort_none _ hf, by decide, by decide⟩
  intro w light point
  rw [World.is_shadowed]
  cases hh : Intersections.hit (Intersections.sort
      (w.intersect ⟨point, (light.origin - point).normalize⟩)) with
  | some h => simp [hh]
  | none => simp [hh]

unseal Rat.add Rat.mul Rat.inv Rat.sub in
/-- Witness for C4: the hit of the concrete occluded configuration is the
record at `t = 1`, a member of the ledger minimal among non-negative
records. -/
theorem is_shadowed_characterization_witness :
    0 ≤ (Intersection.mk 1 occluderOn none none).t ∧
    Intersection.mk 1 occluderOn none none ∈
        shadowWorldOn.intersect
          ⟨shadowPoint, (shadowLight.origin - shadowPoint).normalize⟩ ∧
    ∀ i ∈ shadowWorldOn.intersect
        ⟨shadowPoint, (shadowLight.origin - shadowPoint).normalize⟩,
      0 ≤ i.t → (Intersection.mk 1 occluderOn none none).t ≤ i.t :=
  is_shadowed_characterization.2.1 shadowWorldOn
    ⟨shadowPoint, (shadowLight.origin - shadowPoint).normalize⟩
    (Intersection.mk 1 occluderOn none none) rfl

end RT
